import Mathlib

/-!
Shallow embedding of `pubtools/pulplib/_impl/model/maintenance.py`.

Process-wide state fixed at module import (the environment variables `USER`
and `HOSTNAME`, and the single evaluation of `iso_time_now()` used as the
attrs field default) is bundled in an `Env` value; the wall clock reads that
happen inside a method body take the current instant as an explicit `now`
argument (seconds since the Unix epoch, UTC).
-/

namespace Maintenance

/-- Two-digit zero padding, as `strftime` does for `%m`, `%d`, `%H`, `%M`, `%S`. -/
def pad2 (n : Nat) : String :=
  if n < 10 then "0" ++ toString n else toString n

/-- Four-digit zero padding, as `strftime` does for `%Y`. -/
def pad4 (n : Nat) : String :=
  if n < 10 then "000" ++ toString n
  else if n < 100 then "00" ++ toString n
  else if n < 1000 then "0" ++ toString n
  else toString n

/-- Civil date (year, month, day) from days since 1970-01-01, proleptic
Gregorian calendar (the standard days-to-civil conversion used by
`datetime.utcfromtimestamp`). -/
def civilFromDays (days : Nat) : Nat × Nat × Nat :=
  let z := days + 719468
  let era := z / 146097
  let doe := z % 146097
  let yoe := (doe - doe / 1460 + doe / 36524 - doe / 146096) / 365
  let y := yoe + era * 400
  let doy := doe - (365 * yoe + yoe / 4 - yoe / 100)
  let mp := (5 * doy + 2) / 153
  let d := doy - (153 * mp + 2) / 5 + 1
  let m := if mp < 10 then mp + 3 else mp - 9
  (if m ≤ 2 then y + 1 else y, m, d)

/-- `iso_time_now`: `datetime.datetime.utcnow().strftime("%Y-%m-%dT%H:%M:%SZ")`,
with the current instant `now` (seconds since the Unix epoch) passed
explicitly. -/
def iso_time_now (now : Nat) : String :=
  let dt := civilFromDays (now / 86400)
  let rem := now % 86400
  pad4 dt.1 ++ "-" ++ pad2 dt.2.1 ++ "-" ++ pad2 dt.2.2 ++ "T" ++
    pad2 (rem / 3600) ++ ":" ++ pad2 (rem % 3600 / 60) ++ ":" ++ pad2 (rem % 60) ++ "Z"

/-- Process-wide state read once at module import: `USER = os.environ.get("USER")`,
`HOSTNAME = os.environ.get("HOSTNAME")` (`none` = variable unset), and the
instant at which the module body ran (the attrs field defaults
`started = iso_time_now()` / `last_updated = iso_time_now()` are evaluated
exactly once, at class definition, at this instant). -/
structure Env where
  user : Option String
  hostname : Option String
  importTime : Nat
deriving DecidableEq

/-- Python truthiness of a string-or-None value: `None` and `""` are falsy. -/
def pyTruthy : Option String → Bool
  | none => false
  | some s => decide (s ≠ "")

/-- Python `x or d` for `x` a string-or-None value. -/
def pyOr : Option String → String → String
  | none, d => d
  | some s, d => if s = "" then d else s

/-- `MaintenanceReport._OWNER = "%s@%s" % (USER, HOSTNAME) if all([USER, HOSTNAME])
else "pubtools.pulplib"` (Python `%s` renders `None` as `"None"`, only
reachable when the truthiness test passed). -/
def Env.OWNER (env : Env) : String :=
  if pyTruthy env.user && pyTruthy env.hostname then
    env.user.getD "None" ++ "@" ++ env.hostname.getD "None"
  else "pubtools.pulplib"

/-- `MaintenanceEntry`: attrs frozen class with fields `repo_id` (required),
`message` / `owner` (default `None`), `started` (default: the single
import-time evaluation of `iso_time_now()`). -/
structure MaintenanceEntry where
  repo_id : String
  message : Option String
  owner : Option String
  started : String
deriving DecidableEq

/-- The two error kinds maintenance.py raises: `InvalidDataException(msg)`
from `_from_data` on schema violation, and `ValueError("Duplicate entries")`
from the entries validator. -/
inductive MaintError where
  | InvalidDataException : String → MaintError
  | ValueError : String → MaintError
deriving DecidableEq

/-- `MaintenanceReport`: attrs frozen class. -/
structure MaintenanceReport where
  last_updated : String
  last_updated_by : Option String
  entries : List MaintenanceEntry
deriving DecidableEq

/-- The `@entries.validator check_duplicates`: raises
`ValueError("Duplicate entries")` when `len(repo_ids) != len(set(repo_ids))`. -/
def check_duplicates (value : List MaintenanceEntry) : Except MaintError Unit :=
  let repo_ids := value.map (fun entry => entry.repo_id)
  if repo_ids.length ≠ repo_ids.dedup.length then
    Except.error (MaintError.ValueError "Duplicate entries")
  else Except.ok ()

/-- The attrs-generated constructor of `MaintenanceReport` (also what
`attr.evolve` calls): runs the `entries` validator, then builds the value.
Every construction of a report in the source goes through this. -/
def MaintenanceReport.make (last_updated : String) (last_updated_by : Option String)
    (entries : List MaintenanceEntry) : Except MaintError MaintenanceReport :=
  match check_duplicates entries with
  | Except.error e => Except.error e
  | Except.ok _ =>
      Except.ok { last_updated := last_updated, last_updated_by := last_updated_by,
                  entries := entries }

/-- The default constructor `MaintenanceReport()`: every field takes its attrs
default (`last_updated` = the import-time timestamp, `last_updated_by = None`,
`entries = ()`). -/
def MaintenanceReport.defaultReport (env : Env) : Except MaintError MaintenanceReport :=
  MaintenanceReport.make (iso_time_now env.importTime) none []

/-- The duplicate-filtering loop of `add`: iterate (over the already reversed
combined list), keep an entry iff its `repo_id` was not seen yet, recording
seen ids in `entry_ids`. The output order is the iteration (= reversed)
order; the source does not reverse `filtered_entries` back. -/
def dedupRev : List MaintenanceEntry → List String → List MaintenanceEntry
  | [], _ => []
  | entry :: rest, entry_ids =>
    if entry.repo_id ∈ entry_ids then dedupRev rest entry_ids
    else entry :: dedupRev rest (entry.repo_id :: entry_ids)

/-- `MaintenanceReport.add(repo_ids, message=…, owner=…)`, called at instant
`now`. New entries take the class-level `started` default (the import-time
timestamp), since `add` does not pass `started`. -/
def MaintenanceReport.add (env : Env) (self : MaintenanceReport) (repo_ids : List String)
    (message owner : Option String) (now : Nat) : Except MaintError MaintenanceReport :=
  let message := pyOr message "Maintenance mode is enabled"
  let owner := pyOr owner env.OWNER
  let to_add := repo_ids.map (fun repo =>
    { repo_id := repo, owner := some owner, message := some message,
      started := iso_time_now env.importTime : MaintenanceEntry })
  let entries := self.entries ++ to_add
  let filtered_entries := dedupRev entries.reverse []
  MaintenanceReport.make (iso_time_now now) (some owner) filtered_entries

/-- `MaintenanceReport.remove(repo_ids, owner=…)`: keeps the entries whose
`repo_id` is not in `repo_ids` (membership in the set built from the input
list); `attr.evolve` is not given `last_updated`, so it keeps `self`'s. -/
def MaintenanceReport.remove (env : Env) (self : MaintenanceReport) (repo_ids : List String)
    (owner : Option String) : Except MaintError MaintenanceReport :=
  let owner := pyOr owner env.OWNER
  let new_entries := self.entries.filter (fun entry => decide (entry.repo_id ∉ repo_ids))
  MaintenanceReport.make self.last_updated (some owner) new_entries

/-- Raw Python data as it reaches `from_data` / leaves `_export_dict`: JSON-ish
values (`None`, strings, and insertion-ordered dicts with unique keys). -/
inductive PyVal where
  | null : PyVal
  | str : String → PyVal
  | dict : List (String × PyVal) → PyVal

/-- Dict lookup (first match; Python dicts have unique keys). -/
def dget : List (String × PyVal) → String → Option PyVal
  | [], _ => none
  | (k', v) :: rest, k => if k' = k then some v else dget rest k

/-- The keys of a dict, in insertion order. -/
def keysOf (kvs : List (String × PyVal)) : List String :=
  kvs.map (fun kv => kv.1)

/-- Key list has no duplicates (true of every real Python dict). -/
def nodupKeys (kvs : List (String × PyVal)) : Bool :=
  decide (keysOf kvs).Nodup

/-- The dict has exactly the required key set (no extras, none missing). -/
def hasExactKeys (kvs : List (String × PyVal)) (req : List String) : Bool :=
  nodupKeys kvs &&
    (keysOf kvs).all (fun k => decide (k ∈ req)) &&
    req.all (fun k => decide (k ∈ keysOf kvs))

def isStr : PyVal → Bool
  | PyVal.str _ => true
  | _ => false

def isStrOrNull : PyVal → Bool
  | PyVal.str _ => true
  | PyVal.null => true
  | _ => false

/-- Modelled from the spec: the repo-detail record of the packaged JSON schema
named `maintenance` (the schema file is not part of the sources here). Wire
shape per the spec: `{message: string|null, owner: string|null,
started: string}`. -/
def validRepoDetail : PyVal → Bool
  | PyVal.dict kvs =>
      hasExactKeys kvs ["message", "owner", "started"] &&
      (match dget kvs "message" with | some v => isStrOrNull v | none => false) &&
      (match dget kvs "owner" with | some v => isStrOrNull v | none => false) &&
      (match dget kvs "started" with | some v => isStr v | none => false)
  | _ => false

/-- Modelled from the spec: the top level of the `maintenance` JSON schema.
Wire shape per the spec: `{last_updated: string, last_updated_by: string|null,
repos: {<repo_id>: <repo detail>}}`. -/
def validMaintenanceData : PyVal → Bool
  | PyVal.dict kvs =>
      hasExactKeys kvs ["last_updated", "last_updated_by", "repos"] &&
      (match dget kvs "last_updated" with | some v => isStr v | none => false) &&
      (match dget kvs "last_updated_by" with | some v => isStrOrNull v | none => false) &&
      (match dget kvs "repos" with
       | some (PyVal.dict rs) => nodupKeys rs && rs.all (fun kv => validRepoDetail kv.2)
       | _ => false)
  | _ => false

/-- Modelled from the spec: `jsonschema.validate(instance=data, schema=...)` -
succeeds silently on valid data, otherwise raises a `ValidationError` whose
message text `from_data` forwards. -/
def jsonschemaValidate (data : PyVal) : Except String Unit :=
  if validMaintenanceData data then Except.ok ()
  else Except.error "data does not validate against schema: maintenance"

/-- A string-or-None raw value as an `Option String` field value
(`MaintenanceEntry(..., message=None)` stores `None`, same as the default). -/
def toOptStr : PyVal → Option String
  | PyVal.str s => some s
  | _ => none

/-- `MaintenanceEntry(repo_id=repo_id, **details)` as executed inside
`_from_data`: every key present in `details` is passed through, an absent key
leaves the attrs default (`None` for `message`/`owner`, the import-time
timestamp for `started`). Only reached on schema-validated details. -/
def entryFromDetails (env : Env) (repo_id : String) (details : PyVal) : MaintenanceEntry :=
  match details with
  | PyVal.dict kvs =>
      { repo_id := repo_id,
        message := (dget kvs "message").bind toOptStr,
        owner := (dget kvs "owner").bind toOptStr,
        started := match dget kvs "started" with
          | some (PyVal.str s) => s
          | _ => iso_time_now env.importTime }
  | _ => { repo_id := repo_id, message := none, owner := none,
           started := iso_time_now env.importTime }

/-- `MaintenanceReport._from_data(data)`: validate against the schema (raising
`InvalidDataException(str(error))` on failure, before anything is built), then
one `MaintenanceEntry` per key of `data["repos"]` in iteration order, then the
attrs constructor. -/
def MaintenanceReport.from_data (env : Env) (data : PyVal) :
    Except MaintError MaintenanceReport :=
  match jsonschemaValidate data with
  | Except.error msg => Except.error (MaintError.InvalidDataException msg)
  | Except.ok _ =>
    match data with
    | PyVal.dict kvs =>
      let entries :=
        (match dget kvs "repos" with
         | some (PyVal.dict rs) => rs.map (fun kv => entryFromDetails env kv.1 kv.2)
         | _ => [])
      MaintenanceReport.make
        (match dget kvs "last_updated" with | some (PyVal.str s) => s | _ => "")
        ((dget kvs "last_updated_by").getD PyVal.null |> toOptStr)
        entries
    | _ => MaintenanceReport.make "" none []

/-- An `Option String` field rendered back to raw data (`None` → JSON null). -/
def optStrVal : Option String → PyVal
  | none => PyVal.null
  | some s => PyVal.str s

/-- `MaintenanceReport._export_dict()`: the raw dict with keys `last_updated`,
`last_updated_by`, `repos`; `repos` collects one `{message, owner, started}`
record per entry, keyed by `repo_id`, in entries order. -/
def MaintenanceReport.export_dict (self : MaintenanceReport) : PyVal :=
  PyVal.dict
    [("last_updated", PyVal.str self.last_updated),
     ("last_updated_by", optStrVal self.last_updated_by),
     ("repos", PyVal.dict (self.entries.map (fun entry =>
        (entry.repo_id, PyVal.dict
          [("message", optStrVal entry.message),
           ("owner", optStrVal entry.owner),
           ("started", PyVal.str entry.started)]))))]

/-- Top-level lookup into a raw value (none when not a dict / key absent). -/
def topGet (d : PyVal) (k : String) : Option PyVal :=
  match d with
  | PyVal.dict kvs => dget kvs k
  | _ => none

/-- The association list under the `repos` key ([] when shaped otherwise). -/
def reposAssoc (d : PyVal) : List (String × PyVal) :=
  match topGet d "repos" with
  | some (PyVal.dict rs) => rs
  | _ => []

/-- The repo ids of the `repos` mapping, in insertion order. -/
def reposKeys (d : PyVal) : List String :=
  keysOf (reposAssoc d)

/-- Field `k` of the detail record of repository `repo`. -/
def repoDetailGet (d : PyVal) (repo k : String) : Option PyVal :=
  match dget (reposAssoc d) repo with
  | some (PyVal.dict det) => dget det k
  | _ => none

/-- The entry `add` creates for id `repo` from its resolved message/owner:
`MaintenanceEntry(repo_id=repo, owner=owner, message=message)`, with the
class-level `started` default (the import-time timestamp). -/
def addedEntry (env : Env) (message owner : Option String) (repo : String) :
    MaintenanceEntry :=
  { repo_id := repo,
    message := some (pyOr message "Maintenance mode is enabled"),
    owner := some (pyOr owner env.OWNER),
    started := iso_time_now env.importTime }

/-! ### Concrete sample values -/

/-- Environment with USER/HOSTNAME unset, module imported at epoch second 0. -/
def envNN : Env := { user := none, hostname := none, importTime := 0 }

/-- Environment with USER=alice, HOSTNAME=host1, imported at epoch second 0. -/
def envUH : Env := { user := some "alice", hostname := some "host1", importTime := 0 }

def entryA : MaintenanceEntry :=
  { repo_id := "repoA", message := some "m1", owner := some "o1",
    started := "1970-01-01T00:00:00Z" }

def entryB : MaintenanceEntry :=
  { repo_id := "repoB", message := some "m2", owner := some "o2",
    started := "1970-01-01T00:00:00Z" }

/-- A report holding entries for repoA and repoB. -/
def reportAB : MaintenanceReport :=
  { last_updated := "1970-01-01T00:00:00Z", last_updated_by := none,
    entries := [entryA, entryB] }

/-- The report an `envNN` process gets from the default constructor. -/
def emptyReport : MaintenanceReport :=
  { last_updated := "1970-01-01T00:00:00Z", last_updated_by := none, entries := [] }

/-- Result of `emptyReport.add(["repoA"])` at epoch second 1 in an `envNN`
process. -/
def reportA1 : MaintenanceReport :=
  { last_updated := "1970-01-01T00:00:01Z", last_updated_by := some "pubtools.pulplib",
    entries := [{ repo_id := "repoA", message := some "Maintenance mode is enabled",
                  owner := some "pubtools.pulplib", started := "1970-01-01T00:00:00Z" }] }

/-- Result of `reportA1.add(["repoA"], owner="bob")` at epoch second 2. -/
def reportA2 : MaintenanceReport :=
  { last_updated := "1970-01-01T00:00:02Z", last_updated_by := some "bob",
    entries := [{ repo_id := "repoA", message := some "Maintenance mode is enabled",
                  owner := some "bob", started := "1970-01-01T00:00:00Z" }] }

/-- Result of `reportAB.add(["repoC", "repoD"])` at epoch second 5 in an
`envNN` process: note the reversed entries order. -/
def reportCD : MaintenanceReport :=
  { last_updated := "1970-01-01T00:00:05Z", last_updated_by := some "pubtools.pulplib",
    entries := [{ repo_id := "repoD", message := some "Maintenance mode is enabled",
                  owner := some "pubtools.pulplib", started := "1970-01-01T00:00:00Z" },
                { repo_id := "repoC", message := some "Maintenance mode is enabled",
                  owner := some "pubtools.pulplib", started := "1970-01-01T00:00:00Z" },
                entryB, entryA] }

def entryX : MaintenanceEntry :=
  { repo_id := "x", message := some "Maintenance mode is enabled",
    owner := some "pubtools.pulplib", started := "1970-01-01T00:00:00Z" }

/-- Result of `reportAB.add(["x"], message="", owner="")` at epoch second 7
in an `envNN` process. -/
def reportX : MaintenanceReport :=
  { last_updated := "1970-01-01T00:00:07Z", last_updated_by := some "pubtools.pulplib",
    entries := [entryX, entryB, entryA] }

/-- A schema-valid raw maintenance dict (keys deliberately out of export
order inside the nested records). -/
def rawSample : PyVal :=
  PyVal.dict
    [("last_updated_by", PyVal.str "carol"),
     ("last_updated", PyVal.str "2019-08-15T14:21:12Z"),
     ("repos", PyVal.dict
       [("repo1", PyVal.dict
          [("started", PyVal.str "2019-08-14T09:00:00Z"),
           ("message", PyVal.str "updating content"),
           ("owner", PyVal.null)]),
        ("repo2", PyVal.dict
          [("message", PyVal.null),
           ("owner", PyVal.str "dave"),
           ("started", PyVal.str "2019-08-15T14:21:12Z")])])]

/-- A raw dict missing the required `last_updated_by` and `repos` keys. -/
def rawBad : PyVal := PyVal.dict [("last_updated", PyVal.str "2019-08-15T14:21:12Z")]

/-! ### Basic lemmas about the validator and the constructors -/

lemma length_eq_dedup_length_iff {l : List String} : l.length = l.dedup.length ↔ l.Nodup := by
  constructor
  · intro h
    exact List.dedup_eq_self.mp (l.dedup_sublist.eq_of_length h.symm)
  · intro h
    rw [List.dedup_eq_self.mpr h]

lemma check_duplicates_ok {es : List MaintenanceEntry}
    (h : (es.map (fun e => e.repo_id)).Nodup) : check_duplicates es = Except.ok () := by
  unfold check_duplicates
  rw [if_neg]
  simp only [ne_eq, not_not]
  exact length_eq_dedup_length_iff.mpr h

lemma check_duplicates_error {es : List MaintenanceEntry}
    (h : ¬ (es.map (fun e => e.repo_id)).Nodup) :
    check_duplicates es = Except.error (MaintError.ValueError "Duplicate entries") := by
  unfold check_duplicates
  rw [if_pos]
  exact fun hlen => h (length_eq_dedup_length_iff.mp hlen)

lemma make_ok {lu : String} {lub : Option String} {es : List MaintenanceEntry}
    (h : (es.map (fun e => e.repo_id)).Nodup) :
    MaintenanceReport.make lu lub es =
      Except.ok { last_updated := lu, last_updated_by := lub, entries := es } := by
  unfold MaintenanceReport.make
  rw [check_duplicates_ok h]

lemma make_error {lu : String} {lub : Option String} {es : List MaintenanceEntry}
    (h : ¬ (es.map (fun e => e.repo_id)).Nodup) :
    MaintenanceReport.make lu lub es =
      Except.error (MaintError.ValueError "Duplicate entries") := by
  unfold MaintenanceReport.make
  rw [check_duplicates_error h]

/-! ### Lemmas about the reverse-scan duplicate filter of `add` -/

lemma dedupRev_ids_not_seen {l : List MaintenanceEntry} {seen : List String} {x : String}
    (hx : x ∈ (dedupRev l seen).map (fun e => e.repo_id)) : x ∉ seen := by
  induction l generalizing seen with
  | nil => simp [dedupRev] at hx
  | cons e rest ih =>
    by_cases h : e.repo_id ∈ seen
    · rw [dedupRev, if_pos h] at hx
      exact ih hx
    · rw [dedupRev, if_neg h, List.map_cons, List.mem_cons] at hx
      rcases hx with rfl | hx
      · exact h
      · exact fun hxseen => ih hx (List.mem_cons_of_mem _ hxseen)

lemma dedupRev_nodup (l : List MaintenanceEntry) (seen : List String) :
    ((dedupRev l seen).map (fun e => e.repo_id)).Nodup := by
  induction l generalizing seen with
  | nil => simp [dedupRev]
  | cons e rest ih =>
    by_cases h : e.repo_id ∈ seen
    · rw [dedupRev, if_pos h]
      exact ih seen
    · rw [dedupRev, if_neg h, List.map_cons, List.nodup_cons]
      exact ⟨fun hmem => (dedupRev_ids_not_seen hmem) (List.mem_cons_self _ _), ih _⟩

lemma mem_of_mem_dedupRev {l : List MaintenanceEntry} {seen : List String}
    {e : MaintenanceEntry} (h : e ∈ dedupRev l seen) : e ∈ l := by
  induction l generalizing seen with
  | nil => simp [dedupRev] at h
  | cons e' rest ih =>
    by_cases hs : e'.repo_id ∈ seen
    · rw [dedupRev, if_pos hs] at h
      exact List.mem_cons_of_mem _ (ih h)
    · rw [dedupRev, if_neg hs] at h
      rcases List.mem_cons.mp h with rfl | h
      · exact List.mem_cons_self _ _
      · exact List.mem_cons_of_mem _ (ih h)

/-- What the reverse scan keeps for a given id: nothing if the id was already
seen, otherwise the first entry of the scanned list carrying that id. -/
lemma dedupRev_filter (l : List MaintenanceEntry) (seen : List String) (x : String) :
    (dedupRev l seen).filter (fun e => decide (e.repo_id = x)) =
      if x ∈ seen then [] else (l.filter (fun e => decide (e.repo_id = x))).take 1 := by
  induction l generalizing seen with
  | nil => simp [dedupRev]
  | cons e rest ih =>
    by_cases hseen : e.repo_id ∈ seen
    · rw [dedupRev, if_pos hseen, ih]
      by_cases hx : x ∈ seen
      · rw [if_pos hx, if_pos hx]
      · have hne : ¬ decide (e.repo_id = x) = true := by
          simp only [decide_eq_true_eq]
          exact fun h => hx (h ▸ hseen)
        rw [if_neg hx, if_neg hx, List.filter_cons, if_neg hne]
    · rw [dedupRev, if_neg hseen]
      by_cases hex : e.repo_id = x
      · have hpe : decide (e.repo_id = x) = true := decide_eq_true hex
        have hxseen : x ∉ seen := fun h => hseen (hex ▸ h)
        have hxmem : x ∈ e.repo_id :: seen := by
          rw [← hex]
          exact List.mem_cons_self _ _
        rw [List.filter_cons, if_pos hpe, ih, if_pos hxmem, if_neg hxseen,
          List.filter_cons, if_pos hpe]
        rfl
      · have hne : ¬ decide (e.repo_id = x) = true := by
          simp only [decide_eq_true_eq]
          exact hex
        rw [List.filter_cons, if_neg hne, ih]
        by_cases hx : x ∈ seen
        · rw [if_pos (List.mem_cons_of_mem _ hx), if_pos hx]
        · have hxcons : x ∉ e.repo_id :: seen := by
            simp only [List.mem_cons, not_or]
            exact ⟨fun h => hex h.symm, hx⟩
          rw [if_neg hxcons, if_neg hx, List.filter_cons, if_neg hne]

/-- On a list whose ids are pairwise distinct and disjoint from `seen`, the
scan keeps everything in place. -/
lemma dedupRev_of_nodup {l : List MaintenanceEntry} {seen : List String}
    (h : (l.map (fun e => e.repo_id)).Nodup) (hd : ∀ e ∈ l, e.repo_id ∉ seen) :
    dedupRev l seen = l := by
  induction l generalizing seen with
  | nil => rfl
  | cons e rest ih =>
    rw [List.map_cons, List.nodup_cons] at h
    rw [dedupRev, if_neg (hd e (List.mem_cons_self e rest))]
    congr 1
    refine ih h.2 ?_
    intro e' he'
    simp only [List.mem_cons, not_or]
    exact ⟨fun heq => h.1 (heq ▸ List.mem_map_of_mem _ he'),
           hd e' (List.mem_cons_of_mem _ he')⟩

/-! ### Unfolding lemmas for `add` and `remove` -/

/-- `add` always succeeds (the dedup pass guarantees the entries validator
passes), and this is its result. -/
lemma add_ok (env : Env) (self : MaintenanceReport) (repo_ids : List String)
    (message owner : Option String) (now : Nat) :
    MaintenanceReport.add env self repo_ids message owner now =
      Except.ok
        { last_updated := iso_time_now now,
          last_updated_by := some (pyOr owner env.OWNER),
          entries := dedupRev
            ((self.entries ++ repo_ids.map (addedEntry env message owner)).reverse) [] } :=
  make_ok (dedupRev_nodup _ _)

/-- `remove` on a report with pairwise-distinct entry ids succeeds, and this
is its result. -/
lemma remove_ok (env : Env) (self : MaintenanceReport) (repo_ids : List String)
    (owner : Option String) (h : (self.entries.map (fun e => e.repo_id)).Nodup) :
    MaintenanceReport.remove env self repo_ids owner =
      Except.ok
        { last_updated := self.last_updated,
          last_updated_by := some (pyOr owner env.OWNER),
          entries := self.entries.filter (fun entry => decide (entry.repo_id ∉ repo_ids)) } :=
  make_ok (h.sublist ((List.filter_sublist _).map _))

/-! ### Lemmas about raw data, `from_data` and `export_dict` -/

lemma entryFromDetails_repo_id (env : Env) (k : String) (v : PyVal) :
    (entryFromDetails env k v).repo_id = k := by
  cases v <;> rfl

lemma dget_mem {rs : List (String × PyVal)} {k : String} {v : PyVal}
    (h : dget rs k = some v) : (k, v) ∈ rs := by
  induction rs with
  | nil => simp [dget] at h
  | cons kv rest ih =>
    obtain ⟨k', v'⟩ := kv
    rw [dget] at h
    by_cases hk : k' = k
    · rw [if_pos hk] at h
      subst hk
      rw [Option.some_inj] at h
      subst h
      exact List.mem_cons_self _ _
    · rw [if_neg hk] at h
      exact List.mem_cons_of_mem _ (ih h)

lemma mem_keys_dget {rs : List (String × PyVal)} {k : String}
    (h : k ∈ keysOf rs) : ∃ v, dget rs k = some v := by
  induction rs with
  | nil => simp [keysOf] at h
  | cons kv rest ih =>
    obtain ⟨k', v'⟩ := kv
    by_cases hk : k' = k
    · exact ⟨v', by rw [dget, if_pos hk]⟩
    · simp only [keysOf, List.map_cons, List.mem_cons] at h
      rcases h with rfl | h
      · exact absurd rfl hk
      · obtain ⟨v, hv⟩ := ih h
        exact ⟨v, by rw [dget, if_neg hk]; exact hv⟩

lemma dget_map (rs : List (String × PyVal)) (f : String → PyVal → PyVal) (k : String) :
    dget (rs.map (fun kv => (kv.1, f kv.1 kv.2))) k = (dget rs k).map (f k) := by
  induction rs with
  | nil => rfl
  | cons kv rest ih =>
    obtain ⟨k', v⟩ := kv
    by_cases hk : k' = k
    · subst hk
      simp [dget]
    · simp [dget, hk, ih]

lemma isStrOrNull_elim {v : PyVal} (h : isStrOrNull v = true) :
    v = PyVal.null ∨ ∃ s, v = PyVal.str s := by
  cases v with
  | null => exact Or.inl rfl
  | str s => exact Or.inr ⟨s, rfl⟩
  | dict kvs => simp [isStrOrNull] at h

lemma isStr_elim {v : PyVal} (h : isStr v = true) : ∃ s, v = PyVal.str s := by
  cases v with
  | null => simp [isStr] at h
  | str s => exact ⟨s, rfl⟩
  | dict kvs => simp [isStr] at h

lemma optStrVal_toOptStr {v : PyVal} (h : isStrOrNull v = true) :
    optStrVal (toOptStr v) = v := by
  rcases isStrOrNull_elim h with rfl | ⟨s, rfl⟩ <;> rfl

lemma validRepoDetail_elim {v : PyVal} (h : validRepoDetail v = true) :
    ∃ det, v = PyVal.dict det ∧
      (∃ m, dget det "message" = some m ∧ isStrOrNull m = true) ∧
      (∃ w, dget det "owner" = some w ∧ isStrOrNull w = true) ∧
      (∃ s, dget det "started" = some (PyVal.str s)) := by
  cases v with
  | null => simp [validRepoDetail] at h
  | str s => simp [validRepoDetail] at h
  | dict det =>
    unfold validRepoDetail at h
    simp only [Bool.and_eq_true] at h
    obtain ⟨⟨⟨hkeys, hm⟩, hw⟩, hs⟩ := h
    refine ⟨det, rfl, ?_, ?_, ?_⟩
    · cases hget : dget det "message" with
      | none => rw [hget] at hm; simp at hm
      | some m => rw [hget] at hm; exact ⟨m, rfl, hm⟩
    · cases hget : dget det "owner" with
      | none => rw [hget] at hw; simp at hw
      | some w => rw [hget] at hw; exact ⟨w, rfl, hw⟩
    · cases hget : dget det "started" with
      | none => rw [hget] at hs; simp at hs
      | some s' =>
        rw [hget] at hs
        obtain ⟨s, rfl⟩ := isStr_elim hs
        exact ⟨s, rfl⟩

lemma validMaintenanceData_elim {d : PyVal} (h : validMaintenanceData d = true) :
    ∃ kvs slu vlub rs, d = PyVal.dict kvs ∧
      dget kvs "last_updated" = some (PyVal.str slu) ∧
      dget kvs "last_updated_by" = some vlub ∧ isStrOrNull vlub = true ∧
      dget kvs "repos" = some (PyVal.dict rs) ∧
      (keysOf rs).Nodup ∧
      ∀ kv ∈ rs, validRepoDetail kv.2 = true := by
  cases d with
  | null => simp [validMaintenanceData] at h
  | str s => simp [validMaintenanceData] at h
  | dict kvs =>
    unfold validMaintenanceData at h
    simp only [Bool.and_eq_true] at h
    obtain ⟨⟨⟨hkeys, hlu⟩, hlub⟩, hrepos⟩ := h
    cases hg1 : dget kvs "last_updated" with
    | none => rw [hg1] at hlu; simp at hlu
    | some vlu =>
      rw [hg1] at hlu
      obtain ⟨slu, rfl⟩ := isStr_elim hlu
      cases hg2 : dget kvs "last_updated_by" with
      | none => rw [hg2] at hlub; simp at hlub
      | some vlub =>
        rw [hg2] at hlub
        cases hg3 : dget kvs "repos" with
        | none => rw [hg3] at hrepos; simp at hrepos
        | some vr =>
          rw [hg3] at hrepos
          cases vr with
          | null => simp at hrepos
          | str s => simp at hrepos
          | dict rs =>
            simp only [Bool.and_eq_true] at hrepos
            refine ⟨kvs, slu, vlub, rs, rfl, hg1, hg2, hlub, hg3,
              of_decide_eq_true hrepos.1, ?_⟩
            intro kv hkv
            exact List.all_eq_true.mp hrepos.2 kv hkv

lemma from_data_ok {kvs rs : List (String × PyVal)} {slu : String} {vlub : PyVal}
    (env : Env)
    (hv : validMaintenanceData (PyVal.dict kvs) = true)
    (hlu : dget kvs "last_updated" = some (PyVal.str slu))
    (hlub : dget kvs "last_updated_by" = some vlub)
    (hrs : dget kvs "repos" = some (PyVal.dict rs))
    (hnd : (keysOf rs).Nodup) :
    MaintenanceReport.from_data env (PyVal.dict kvs) =
      Except.ok { last_updated := slu, last_updated_by := toOptStr vlub,
                  entries := rs.map (fun kv => entryFromDetails env kv.1 kv.2) } := by
  unfold MaintenanceReport.from_data jsonschemaValidate
  rw [if_pos hv]
  simp only [hlu, hlub, hrs, Option.getD_some]
  refine make_ok ?_
  rw [List.map_map]
  have : rs.map ((fun e => e.repo_id) ∘ fun kv => entryFromDetails env kv.1 kv.2) =
      keysOf rs :=
    List.map_congr_left (fun kv _ => entryFromDetails_repo_id env kv.1 kv.2)
  rw [this]
  exact hnd

lemma from_data_error {d : PyVal} (env : Env) (hv : validMaintenanceData d = false) :
    MaintenanceReport.from_data env d =
      Except.error (MaintError.InvalidDataException
        "data does not validate against schema: maintenance") := by
  unfold MaintenanceReport.from_data jsonschemaValidate
  rw [if_neg (by simp [hv])]

lemma reposAssoc_export (r : MaintenanceReport) :
    reposAssoc r.export_dict =
      r.entries.map (fun e => (e.repo_id, PyVal.dict
        [("message", optStrVal e.message), ("owner", optStrVal e.owner),
         ("started", PyVal.str e.started)])) := rfl

lemma reposAssoc_dict {kvs rs : List (String × PyVal)}
    (hrs : dget kvs "repos" = some (PyVal.dict rs)) :
    reposAssoc (PyVal.dict kvs) = rs := by
  simp only [reposAssoc, topGet, hrs]

lemma entries_ids_from_data (env : Env) (rs : List (String × PyVal)) :
    ((rs.map (fun kv => entryFromDetails env kv.1 kv.2)).map (fun e => e.repo_id)) =
      keysOf rs := by
  rw [List.map_map]
  exact List.map_congr_left (fun kv _ => entryFromDetails_repo_id env kv.1 kv.2)

/-- `repos` as exported for a report built by `from_data`: same keys, detail
records rebuilt from the entries. -/
lemma reposAssoc_export_from_data (env : Env) (lu : String) (lub : Option String)
    (rs : List (String × PyVal)) :
    reposAssoc (MaintenanceReport.export_dict
        { last_updated := lu, last_updated_by := lub,
          entries := rs.map (fun kv => entryFromDetails env kv.1 kv.2) }) =
      rs.map (fun kv => (kv.1,
        (fun k v => PyVal.dict
          [("message", optStrVal (entryFromDetails env k v).message),
           ("owner", optStrVal (entryFromDetails env k v).owner),
           ("started", PyVal.str (entryFromDetails env k v).started)]) kv.1 kv.2)) := by
  rw [reposAssoc_export, List.map_map]
  refine List.map_congr_left (fun kv _ => ?_)
  simp only [Function.comp_apply]
  rw [entryFromDetails_repo_id]

/-- C1: for every raw dict accepted by the `maintenance` schema,
`export_dict(from_data(raw))` is logically equal to `raw`: same
`last_updated`, same `last_updated_by`, and a `repos` mapping with exactly
the same repo_id keys, each carrying the same `message`, `owner` and
`started` values. -/
theorem from_data_export_dict_roundtrip (env : Env) (d : PyVal)
    (hv : validMaintenanceData d = true) :
    ∃ r, MaintenanceReport.from_data env d = Except.ok r ∧
      topGet r.export_dict "last_updated" = topGet d "last_updated" ∧
      topGet r.export_dict "last_updated_by" = topGet d "last_updated_by" ∧
      reposKeys r.export_dict = reposKeys d ∧
      (∀ repo ∈ reposKeys d,
        repoDetailGet r.export_dict repo "message" = repoDetailGet d repo "message" ∧
        repoDetailGet r.export_dict repo "owner" = repoDetailGet d repo "owner" ∧
        repoDetailGet r.export_dict repo "started" = repoDetailGet d repo "started") := by
  obtain ⟨kvs, slu, vlub, rs, rfl, hlu, hlub, hvlub, hrs, hnd, hall⟩ :=
    validMaintenanceData_elim hv
  refine ⟨_, from_data_ok env hv hlu hlub hrs hnd, ?_, ?_, ?_, ?_⟩
  · show some (PyVal.str slu) = dget kvs "last_updated"
    exact hlu.symm
  · show some (optStrVal (toOptStr vlub)) = dget kvs "last_updated_by"
    rw [optStrVal_toOptStr hvlub]
    exact hlub.symm
  · show keysOf (reposAssoc _) = keysOf (reposAssoc _)
    rw [reposAssoc_export_from_data, reposAssoc_dict hrs]
    unfold keysOf
    rw [List.map_map]
    exact List.map_congr_left (fun kv _ => rfl)
  · intro repo hmem
    rw [reposKeys, reposAssoc_dict hrs] at hmem
    obtain ⟨v, hget⟩ := mem_keys_dget hmem
    have hvalid := hall _ (dget_mem hget)
    obtain ⟨det, rfl, ⟨m, hm, hmok⟩, ⟨w, hw, hwok⟩, ⟨s, hs⟩⟩ :=
      validRepoDetail_elim hvalid
    have hexp : dget (reposAssoc (MaintenanceReport.export_dict
        { last_updated := slu, last_updated_by := toOptStr vlub,
          entries := rs.map (fun kv => entryFromDetails env kv.1 kv.2) })) repo =
        some (PyVal.dict
          [("message", optStrVal (entryFromDetails env repo (PyVal.dict det)).message),
           ("owner", optStrVal (entryFromDetails env repo (PyVal.dict det)).owner),
           ("started", PyVal.str (entryFromDetails env repo (PyVal.dict det)).started)]) := by
      rw [reposAssoc_export_from_data, dget_map rs (fun k v => PyVal.dict
          [("message", optStrVal (entryFromDetails env k v).message),
           ("owner", optStrVal (entryFromDetails env k v).owner),
           ("started", PyVal.str (entryFromDetails env k v).started)]) repo, hget]
      rfl
    have hraw : ∀ k, repoDetailGet (PyVal.dict kvs) repo k = dget det k := by
      intro k
      unfold repoDetailGet
      rw [reposAssoc_dict hrs, hget]
    refine ⟨?_, ?_, ?_⟩
    · rw [hraw]
      unfold repoDetailGet
      rw [hexp]
      show some (optStrVal ((dget det "message").bind toOptStr)) = dget det "message"
      rw [hm]
      show some (optStrVal (toOptStr m)) = some m
      rw [optStrVal_toOptStr hmok]
    · rw [hraw]
      unfold repoDetailGet
      rw [hexp]
      show some (optStrVal ((dget det "owner").bind toOptStr)) = dget det "owner"
      rw [hw]
      show some (optStrVal (toOptStr w)) = some w
      rw [optStrVal_toOptStr hwok]
    · rw [hraw]
      unfold repoDetailGet
      rw [hexp]
      show some (PyVal.str (entryFromDetails env repo (PyVal.dict det)).started) =
        dget det "started"
      rw [hs]
      show some (PyVal.str (match dget det "started" with
        | some (PyVal.str s) => s
        | _ => iso_time_now env.importTime)) = some (PyVal.str s)
      rw [hs]

/-! ### Lemmas about resolved defaults and the surviving entry of `add` -/

lemma pyOr_ne_empty {v : Option String} {d : String} (hd : d ≠ "") : pyOr v d ≠ "" := by
  cases v with
  | none => exact hd
  | some s =>
    by_cases hs : s = ""
    · rw [pyOr, if_pos hs]
      exact hd
    · rw [pyOr, if_neg hs]
      exact hs

lemma OWNER_ne_empty (env : Env) : env.OWNER ≠ "" := by
  unfold Env.OWNER
  by_cases h : (pyTruthy env.user && pyTruthy env.hostname) = true
  · rw [if_pos h]
    intro hcontra
    have hlen := congrArg String.length hcontra
    rw [String.length_append, String.length_append] at hlen
    have h1 : ("@" : String).length = 1 := rfl
    have h0 : ("" : String).length = 0 := rfl
    omega
  · rw [if_neg h]
    intro hcontra
    exact absurd (congrArg String.length hcontra) (by decide)

lemma take_one_append_all_eq {l l2 : List MaintenanceEntry} {a : MaintenanceEntry}
    (hne : l ≠ []) (hall : ∀ x ∈ l, x = a) : (l ++ l2).take 1 = [a] := by
  cases l with
  | nil => exact absurd rfl hne
  | cons x xs =>
    rw [List.cons_append, hall x (List.mem_cons_self _ _)]
    rfl

/-- For every id of the `repo_ids` argument, the single entry surviving in
the result of `add` is the freshly created one carrying this call's resolved
message/owner and the import-time `started` default. -/
lemma add_filter_eq_new {env : Env} {r : MaintenanceReport} {repo_ids : List String}
    {message owner : Option String} {now : Nat} {r1 : MaintenanceReport}
    (h : MaintenanceReport.add env r repo_ids message owner now = Except.ok r1)
    {repo : String} (hrepo : repo ∈ repo_ids) :
    r1.entries.filter (fun e => decide (e.repo_id = repo)) =
      [addedEntry env message owner repo] := by
  rw [add_ok env r repo_ids message owner now] at h
  injection h with h
  subst h
  show (dedupRev _ []).filter _ = _
  rw [dedupRev_filter, if_neg (List.not_mem_nil repo), List.filter_reverse,
    List.filter_append, List.reverse_append]
  have hmem : addedEntry env message owner repo ∈
      (repo_ids.map (addedEntry env message owner)).filter
        (fun e => decide (e.repo_id = repo)) :=
    List.mem_filter.mpr ⟨List.mem_map.mpr ⟨repo, hrepo, rfl⟩, by simp [addedEntry]⟩
  refine take_one_append_all_eq (List.ne_nil_of_mem (List.mem_reverse.mpr hmem)) ?_
  intro x hx
  obtain ⟨hxmem, hxid⟩ := List.mem_filter.mp (List.mem_reverse.mp hx)
  obtain ⟨repo', _, rfl⟩ := List.mem_map.mp hxmem
  have : repo' = repo := by simpa [addedEntry] using hxid
  rw [this]

lemma addedEntry_ids (env : Env) (message owner : Option String)
    (repo_ids : List String) :
    (repo_ids.map (addedEntry env message owner)).map (fun e => e.repo_id) =
      repo_ids := by
  induction repo_ids with
  | nil => rfl
  | cons a rest ih =>
    rw [List.map_cons, List.map_cons, ih]
    rfl

/-! ### Claim theorems -/

/-- C2 (code bug): with the module imported at epoch second 0, an `add` call
at epoch second 86400 creates an entry whose `started` is the import-time
timestamp (1970-01-01), not the call-time timestamp (1970-01-02): the attrs
default `started=iso_time_now()` is evaluated once, at class definition, so
entries do not get the current UTC time of their construction. -/
theorem add_entry_started_is_import_time :
    MaintenanceReport.add envNN emptyReport ["repoA"] none none 86400 =
      Except.ok { last_updated := "1970-01-02T00:00:00Z",
                  last_updated_by := some "pubtools.pulplib",
                  entries := [{ repo_id := "repoA",
                                message := some "Maintenance mode is enabled",
                                owner := some "pubtools.pulplib",
                                started := "1970-01-01T00:00:00Z" }] } ∧
    "1970-01-01T00:00:00Z" ≠ iso_time_now 86400 :=
  ⟨rfl, by decide⟩

/-- C3: `add` stamps `last_updated` with the call-time clock and sets
`last_updated_by` to the resolved owner; `remove` sets `last_updated_by` but
returns a report whose `last_updated` equals the input's exactly. Both
operations build new report values; the input is unmodified. -/
theorem add_remove_timestamps (env : Env) (r : MaintenanceReport)
    (repo_ids : List String) (message owner : Option String) (now : Nat)
    (h : (r.entries.map (fun e => e.repo_id)).Nodup) :
    (∃ r1, MaintenanceReport.add env r repo_ids message owner now = Except.ok r1 ∧
      r1.last_updated = iso_time_now now ∧
      r1.last_updated_by = some (pyOr owner env.OWNER)) ∧
    (∃ r2, MaintenanceReport.remove env r repo_ids owner = Except.ok r2 ∧
      r2.last_updated = r.last_updated ∧
      r2.last_updated_by = some (pyOr owner env.OWNER)) :=
  ⟨⟨_, add_ok env r repo_ids message owner now, rfl, rfl⟩,
   ⟨_, remove_ok env r repo_ids owner h, rfl, rfl⟩⟩

/-- Witness for C3 at a concrete report, owner and clock. -/
theorem add_remove_timestamps_witness :
    (∃ r1, MaintenanceReport.add envUH reportAB ["repoA"] none (some "bob") 5 =
        Except.ok r1 ∧
      r1.last_updated = iso_time_now 5 ∧
      r1.last_updated_by = some (pyOr (some "bob") envUH.OWNER)) ∧
    (∃ r2, MaintenanceReport.remove envUH reportAB ["repoA"] (some "bob") =
        Except.ok r2 ∧
      r2.last_updated = reportAB.last_updated ∧
      r2.last_updated_by = some (pyOr (some "bob") envUH.OWNER)) :=
  add_remove_timestamps envUH reportAB ["repoA"] none (some "bob") 5 (by decide)

/-- C4: constructing a report whose entries repeat a repo_id fails with
`ValueError("Duplicate entries")`; the reports produced by `add` (from any
report) and by `remove` (from a duplicate-free report) have pairwise-distinct
repo_ids, so the construction check never fires on those paths. -/
theorem duplicate_entries_invariant :
    (∀ (lu : String) (lub : Option String) (es : List MaintenanceEntry),
      ¬ (es.map (fun e => e.repo_id)).Nodup →
      MaintenanceReport.make lu lub es =
        Except.error (MaintError.ValueError "Duplicate entries")) ∧
    (∀ (env : Env) (r : MaintenanceReport) repo_ids message owner now,
      ∃ r1, MaintenanceReport.add env r repo_ids message owner now = Except.ok r1 ∧
        (r1.entries.map (fun e => e.repo_id)).Nodup) ∧
    (∀ (env : Env) (r : MaintenanceReport) repo_ids owner,
      (r.entries.map (fun e => e.repo_id)).Nodup →
      ∃ r2, MaintenanceReport.remove env r repo_ids owner = Except.ok r2 ∧
        (r2.entries.map (fun e => e.repo_id)).Nodup) :=
  ⟨fun _ _ _ h => make_error h,
   fun env r ids m o now => ⟨_, add_ok env r ids m o now, dedupRev_nodup _ _⟩,
   fun env r ids o h =>
     ⟨_, remove_ok env r ids o h, h.sublist ((List.filter_sublist _).map _)⟩⟩

/-- Witness for C4: a duplicate construction fails; concrete add/remove
results keep ids pairwise distinct. -/
theorem duplicate_entries_invariant_witness :
    (MaintenanceReport.make "t" none [entryA, entryA] =
      Except.error (MaintError.ValueError "Duplicate entries")) ∧
    (∃ r1, MaintenanceReport.add envNN reportAB ["repoA", "repoA"] none none 3 =
        Except.ok r1 ∧ (r1.entries.map (fun e => e.repo_id)).Nodup) ∧
    (∃ r2, MaintenanceReport.remove envNN reportAB ["repoA"] none = Except.ok r2 ∧
      (r2.entries.map (fun e => e.repo_id)).Nodup) :=
  ⟨duplicate_entries_invariant.1 "t" none [entryA, entryA] (by decide),
   duplicate_entries_invariant.2.1 envNN reportAB ["repoA", "repoA"] none none 3,
   duplicate_entries_invariant.2.2 envNN reportAB ["repoA"] none (by decide)⟩

/-- C5: `remove` keeps exactly the entries whose repo_id is not in the input
list (set semantics: only membership matters, duplicates and order of the
input are irrelevant), in their original relative order; when nothing
matches, `entries` is unchanged while `last_updated_by` is still set to the
resolved owner. -/
theorem remove_entries_spec (env : Env) (r : MaintenanceReport)
    (repo_ids : List String) (owner : Option String)
    (h : (r.entries.map (fun e => e.repo_id)).Nodup) :
    ∃ r2, MaintenanceReport.remove env r repo_ids owner = Except.ok r2 ∧
      r2.entries = r.entries.filter (fun e => decide (e.repo_id ∉ repo_ids)) ∧
      r2.last_updated_by = some (pyOr owner env.OWNER) ∧
      (∀ repo_ids' : List String, (∀ x, x ∈ repo_ids' ↔ x ∈ repo_ids) →
        MaintenanceReport.remove env r repo_ids' owner =
          MaintenanceReport.remove env r repo_ids owner) ∧
      ((∀ e ∈ r.entries, e.repo_id ∉ repo_ids) → r2.entries = r.entries) := by
  refine ⟨_, remove_ok env r repo_ids owner h, rfl, rfl, ?_, ?_⟩
  · intro ids' hiff
    have hfeq : r.entries.filter (fun e => decide (e.repo_id ∉ ids')) =
        r.entries.filter (fun e => decide (e.repo_id ∉ repo_ids)) :=
      List.filter_congr (fun e _ => decide_eq_decide.mpr (not_congr (hiff e.repo_id)))
    rw [remove_ok env r ids' owner h, remove_ok env r repo_ids owner h, hfeq]
  · intro hnone
    show r.entries.filter _ = r.entries
    exact List.filter_eq_self.mpr (fun e he => decide_eq_true (hnone e he))

/-- Witness for C5: removing an id that is not present leaves the entries
unchanged and still sets `last_updated_by`. -/
theorem remove_entries_spec_witness :
    ∃ r2, MaintenanceReport.remove envUH reportAB ["repoX"] none = Except.ok r2 ∧
      r2.entries = reportAB.entries.filter (fun e => decide (e.repo_id ∉ ["repoX"])) ∧
      r2.last_updated_by = some (pyOr none envUH.OWNER) ∧
      (∀ repo_ids' : List String, (∀ x, x ∈ repo_ids' ↔ x ∈ ["repoX"]) →
        MaintenanceReport.remove envUH reportAB repo_ids' none =
          MaintenanceReport.remove envUH reportAB ["repoX"] none) ∧
      ((∀ e ∈ reportAB.entries, e.repo_id ∉ ["repoX"]) → r2.entries = reportAB.entries) :=
  remove_entries_spec envUH reportAB ["repoX"] none (by decide)

/-- C6: when `add` is called with a repo_id already present in the report (or
repeated within the call), the result keeps exactly one entry for that id:
the newly created one, carrying this call's resolved message and owner. -/
theorem add_overwrites_existing (env : Env) (r : MaintenanceReport)
    (repo_ids : List String) (message owner : Option String) (now : Nat)
    (r1 : MaintenanceReport)
    (h : MaintenanceReport.add env r repo_ids message owner now = Except.ok r1) :
    ∀ repo ∈ repo_ids,
      r1.entries.filter (fun e => decide (e.repo_id = repo)) =
        [addedEntry env message owner repo] :=
  fun _ hrepo => add_filter_eq_new h hrepo

/-- Witness for C6: the scenario `add(["repoA"])` then `add(["repoA"],
owner="bob")` ends with a single repoA entry owned by bob. -/
theorem add_overwrites_existing_witness :
    (MaintenanceReport.add envNN emptyReport ["repoA"] none none 1 =
      Except.ok reportA1) ∧
    (MaintenanceReport.add envNN reportA1 ["repoA"] none (some "bob") 2 =
      Except.ok reportA2) ∧
    reportA2.entries.filter (fun e => decide (e.repo_id = "repoA")) =
      [addedEntry envNN none (some "bob") "repoA"] :=
  ⟨rfl, rfl,
   add_overwrites_existing envNN reportA1 ["repoA"] none (some "bob") 2 reportA2 rfl
     "repoA" (by decide)⟩

/-- C7: `from_data` fails with `InvalidDataException` carrying the schema
validator's message exactly when the data fails validation against the
`maintenance` schema, constructing no report in that case; on success it
builds one `MaintenanceEntry` per key of `data["repos"]` in iteration order
(repo_id = the key, remaining fields passed through). The failure is also
logged before raising; logging is a side effect outside this embedding. -/
theorem from_data_validation (env : Env) (d : PyVal) :
    (∀ msg, jsonschemaValidate d = Except.error msg →
      MaintenanceReport.from_data env d =
        Except.error (MaintError.InvalidDataException msg)) ∧
    (validMaintenanceData d = true →
      ∃ r, MaintenanceReport.from_data env d = Except.ok r ∧
        r.entries.map (fun e => e.repo_id) = reposKeys d ∧
        (∀ repo ∈ reposKeys d, ∃ e ∈ r.entries, e.repo_id = repo ∧
          repoDetailGet d repo "message" = some (optStrVal e.message) ∧
          repoDetailGet d repo "owner" = some (optStrVal e.owner) ∧
          repoDetailGet d repo "started" = some (PyVal.str e.started))) := by
  constructor
  · intro msg hmsg
    unfold jsonschemaValidate at hmsg
    cases hvb : validMaintenanceData d with
    | true =>
      rw [hvb] at hmsg
      simp at hmsg
    | false =>
      rw [hvb] at hmsg
      simp only [Bool.false_eq_true, if_false, Except.error.injEq] at hmsg
      rw [from_data_error env hvb, hmsg]
  · intro hv
    obtain ⟨kvs, slu, vlub, rs, rfl, hlu, hlub, hvlub, hrs, hnd, hall⟩ :=
      validMaintenanceData_elim hv
    refine ⟨_, from_data_ok env hv hlu hlub hrs hnd, ?_, ?_⟩
    · rw [reposKeys, reposAssoc_dict hrs]
      exact entries_ids_from_data env rs
    · intro repo hmem
      rw [reposKeys, reposAssoc_dict hrs] at hmem
      obtain ⟨v, hget⟩ := mem_keys_dget hmem
      have hvalid := hall _ (dget_mem hget)
      obtain ⟨det, rfl, ⟨m, hm, hmok⟩, ⟨w, hw, hwok⟩, ⟨s, hs⟩⟩ :=
        validRepoDetail_elim hvalid
      have hraw : ∀ k, repoDetailGet (PyVal.dict kvs) repo k = dget det k := by
        intro k
        unfold repoDetailGet
        rw [reposAssoc_dict hrs, hget]
      refine ⟨entryFromDetails env repo (PyVal.dict det),
        List.mem_map.mpr ⟨(repo, PyVal.dict det), dget_mem hget, rfl⟩,
        entryFromDetails_repo_id env repo _, ?_, ?_, ?_⟩
      · rw [hraw, hm]
        show some m = some (optStrVal ((dget det "message").bind toOptStr))
        rw [hm]
        show some m = some (optStrVal (toOptStr m))
        rw [optStrVal_toOptStr hmok]
      · rw [hraw, hw]
        show some w = some (optStrVal ((dget det "owner").bind toOptStr))
        rw [hw]
        show some w = some (optStrVal (toOptStr w))
        rw [optStrVal_toOptStr hwok]
      · rw [hraw, hs]
        show some (PyVal.str s) = some (PyVal.str (match dget det "started" with
          | some (PyVal.str s') => s'
          | _ => iso_time_now env.importTime))
        rw [hs]

/-- Witness for C7: one failing and one succeeding concrete `from_data`. -/
theorem from_data_validation_witness :
    (MaintenanceReport.from_data envNN rawBad =
      Except.error (MaintError.InvalidDataException
        "data does not validate against schema: maintenance")) ∧
    (∃ r, MaintenanceReport.from_data envNN rawSample = Except.ok r ∧
      r.entries.map (fun e => e.repo_id) = reposKeys rawSample ∧
      (∀ repo ∈ reposKeys rawSample, ∃ e ∈ r.entries, e.repo_id = repo ∧
        repoDetailGet rawSample repo "message" = some (optStrVal e.message) ∧
        repoDetailGet rawSample repo "owner" = some (optStrVal e.owner) ∧
        repoDetailGet rawSample repo "started" = some (PyVal.str e.started))) :=
  ⟨(from_data_validation envNN rawBad).1 _ rfl,
   (from_data_validation envNN rawSample).2 rfl⟩

/-- C8 counterexample: USER set to the empty string and HOSTNAME set to
"host1" are both set environment variables, yet the default owner is the
fallback literal, not "@host1": `all([USER, HOSTNAME])` tests truthiness,
not presence. -/
theorem default_owner_counterexample :
    Env.OWNER { user := some "", hostname := some "host1", importTime := 0 } =
      "pubtools.pulplib" ∧
    Env.OWNER { user := some "", hostname := some "host1", importTime := 0 } ≠
      "@host1" :=
  ⟨rfl, by decide⟩

/-- C8 amended: with no message argument every new entry's message is the
literal "Maintenance mode is enabled"; with no owner argument the new
entries' owner and the result's `last_updated_by` equal the process default
owner, which is "USER@HOSTNAME" when both environment variables are set and
non-empty, and the literal "pubtools.pulplib" otherwise. -/
theorem default_resolution (env : Env) (r : MaintenanceReport)
    (repo_ids : List String) (now : Nat) :
    (∃ r1, MaintenanceReport.add env r repo_ids none none now = Except.ok r1 ∧
      r1.last_updated_by = some env.OWNER ∧
      ∀ repo ∈ repo_ids,
        r1.entries.filter (fun e => decide (e.repo_id = repo)) =
          [addedEntry env none none repo]) ∧
    (∀ u h, env.user = some u → env.hostname = some h → u ≠ "" → h ≠ "" →
      env.OWNER = u ++ "@" ++ h) ∧
    ((env.user = none ∨ env.user = some "" ∨
      env.hostname = none ∨ env.hostname = some "") →
      env.OWNER = "pubtools.pulplib") := by
  refine ⟨⟨_, add_ok env r repo_ids none none now, rfl, ?_⟩, ?_, ?_⟩
  · intro repo hrepo
    exact add_filter_eq_new (add_ok env r repo_ids none none now) hrepo
  · intro u h hUser hHost hu hh
    unfold Env.OWNER
    rw [hUser, hHost]
    rw [if_pos (by simp [pyTruthy, hu, hh])]
    rfl
  · intro hcase
    rcases hcase with h | h | h | h <;>
      · unfold Env.OWNER
        rw [h]
        simp [pyTruthy]

/-- Witness for C8 at concrete environments. -/
theorem default_resolution_witness :
    (∃ r1, MaintenanceReport.add envUH reportAB ["x"] none none 5 = Except.ok r1 ∧
      r1.last_updated_by = some envUH.OWNER ∧
      ∀ repo ∈ (["x"] : List String),
        r1.entries.filter (fun e => decide (e.repo_id = repo)) =
          [addedEntry envUH none none repo]) ∧
    envUH.OWNER = "alice" ++ "@" ++ "host1" ∧
    envNN.OWNER = "pubtools.pulplib" :=
  ⟨(default_resolution envUH reportAB ["x"] 5).1,
   (default_resolution envUH reportAB ["x"] 5).2.1 "alice" "host1" rfl rfl
     (by decide) (by decide),
   (default_resolution envNN reportAB ["x"] 5).2.2 (Or.inl rfl)⟩

/-- Witness for C1 at a concrete schema-valid raw dict. -/
theorem from_data_export_dict_roundtrip_witness :
    ∃ r, MaintenanceReport.from_data envNN rawSample = Except.ok r ∧
      topGet r.export_dict "last_updated" = topGet rawSample "last_updated" ∧
      topGet r.export_dict "last_updated_by" = topGet rawSample "last_updated_by" ∧
      reposKeys r.export_dict = reposKeys rawSample ∧
      (∀ repo ∈ reposKeys rawSample,
        repoDetailGet r.export_dict repo "message" =
          repoDetailGet rawSample repo "message" ∧
        repoDetailGet r.export_dict repo "owner" =
          repoDetailGet rawSample repo "owner" ∧
        repoDetailGet r.export_dict repo "started" =
          repoDetailGet rawSample repo "started") :=
  from_data_export_dict_roundtrip envNN rawSample rfl

/-- C9 counterexample: adding ["repoC", "repoD"] to a report with entries
[repoA, repoB] yields ids ["repoD", "repoC", "repoB", "repoA"] - the output
order of the reverse scan, which the source never reverses back - not the
claimed ["repoA", "repoB", "repoC", "repoD"]. -/
theorem add_order_counterexample :
    (MaintenanceReport.add envNN reportAB ["repoC", "repoD"] none none 5 =
      Except.ok reportCD) ∧
    reportCD.entries.map (fun e => e.repo_id) =
      ["repoD", "repoC", "repoB", "repoA"] ∧
    ["repoD", "repoC", "repoB", "repoA"] ≠ ["repoA", "repoB", "repoC", "repoD"] :=
  ⟨rfl, rfl, by decide⟩

/-- C9 amended: when the added ids are pairwise distinct and none is already
present in the report, the result's entries are the reverse of the combined
sequence: the new entries first, in reverse repo_ids order, then the
existing entries in reverse original order. -/
theorem add_order_amended (env : Env) (r : MaintenanceReport)
    (repo_ids : List String) (message owner : Option String) (now : Nat)
    (hids : repo_ids.Nodup) (hr : (r.entries.map (fun e => e.repo_id)).Nodup)
    (hdisj : ∀ x ∈ repo_ids, x ∉ r.entries.map (fun e => e.repo_id)) :
    ∃ r1, MaintenanceReport.add env r repo_ids message owner now = Except.ok r1 ∧
      r1.entries =
        (repo_ids.map (addedEntry env message owner)).reverse ++
          r.entries.reverse := by
  refine ⟨_, add_ok env r repo_ids message owner now, ?_⟩
  have hmapids : (((r.entries ++ repo_ids.map (addedEntry env message owner)).reverse).map
      (fun e => e.repo_id)).Nodup := by
    rw [List.map_reverse, List.nodup_reverse, List.map_append, List.nodup_append,
      addedEntry_ids]
    exact ⟨hr, hids, fun x hx hx' => hdisj x hx' hx⟩
  have hseen : ∀ e ∈ (r.entries ++ repo_ids.map (addedEntry env message owner)).reverse,
      e.repo_id ∉ ([] : List String) := fun e _ => List.not_mem_nil _
  show dedupRev _ [] = _
  rw [dedupRev_of_nodup hmapids hseen, List.reverse_append]

/-- Witness for C9 amended at concrete inputs. -/
theorem add_order_amended_witness :
    ∃ r1, MaintenanceReport.add envNN reportAB ["repoC", "repoD"] none none 5 =
        Except.ok r1 ∧
      r1.entries =
        ((["repoC", "repoD"] : List String).map (addedEntry envNN none none)).reverse ++
          reportAB.entries.reverse :=
  add_order_amended envNN reportAB ["repoC", "repoD"] none none 5 (by decide)
    (by decide) (by decide)

/-- C10: default resolution tests truthiness, so an explicit empty-string
(or None) message/owner is indistinguishable from omitting the argument, and
no entry created by `add` ever carries an empty-string message or owner. -/
theorem falsy_arguments_use_defaults (env : Env) (r : MaintenanceReport)
    (repo_ids : List String) (now : Nat) :
    (MaintenanceReport.add env r repo_ids (some "") (some "") now =
      MaintenanceReport.add env r repo_ids none none now) ∧
    (MaintenanceReport.remove env r repo_ids (some "") =
      MaintenanceReport.remove env r repo_ids none) ∧
    (∀ message owner r1,
      MaintenanceReport.add env r repo_ids message owner now = Except.ok r1 →
      ∀ e ∈ r1.entries, e ∉ r.entries →
        e.message ≠ some "" ∧ e.owner ≠ some "") := by
  refine ⟨rfl, rfl, ?_⟩
  intro message owner r1 h e he hnotin
  rw [add_ok env r repo_ids message owner now] at h
  injection h with h
  subst h
  have he' : e ∈ dedupRev
      ((r.entries ++ repo_ids.map (addedEntry env message owner)).reverse) [] := he
  rcases List.mem_append.mp (List.mem_reverse.mp (mem_of_mem_dedupRev he')) with
    hold | hnew
  · exact absurd hold hnotin
  · obtain ⟨repo', _, rfl⟩ := List.mem_map.mp hnew
    constructor
    · intro hcontra
      rw [show (addedEntry env message owner repo').message =
        some (pyOr message "Maintenance mode is enabled") from rfl,
        Option.some_inj] at hcontra
      exact pyOr_ne_empty (by decide) hcontra
    · intro hcontra
      rw [show (addedEntry env message owner repo').owner =
        some (pyOr owner env.OWNER) from rfl, Option.some_inj] at hcontra
      exact pyOr_ne_empty (OWNER_ne_empty env) hcontra

/-- Witness for C10: the empty-string call equals the defaulted call, and the
newly added entry's fields are non-empty. -/
theorem falsy_arguments_use_defaults_witness :
    (MaintenanceReport.add envNN reportAB ["x"] (some "") (some "") 7 =
      MaintenanceReport.add envNN reportAB ["x"] none none 7) ∧
    (MaintenanceReport.add envNN reportAB ["x"] (some "") (some "") 7 =
      Except.ok reportX) ∧
    (entryX.message ≠ some "" ∧ entryX.owner ≠ some "") :=
  ⟨(falsy_arguments_use_defaults envNN reportAB ["x"] 7).1, rfl,
   (falsy_arguments_use_defaults envNN reportAB ["x"] 7).2.2 (some "") (some "")
     reportX rfl entryX (by decide) (by decide)⟩

end Maintenance
